import Mathlib

/-!
Verification of the request-file parser and request-builder of `httper`.

The repository ships `src/main.rs` (CLI front end, base-directory computation,
sequential send loop) and `src/error.rs` (the `Error` enum).  The parser modules
`parse.rs`, `form.rs` and `model.rs` are declared in `main.rs` but their sources
are not in the repository snapshot; the parser pipeline below is therefore
modelled from the specification (sections 3, 4, 6 and 7), while the error
taxonomy, the base-directory computation and the send loop are embedded from
`src/error.rs` and `src/main.rs`.

Strings are handled at the character-list level so that every operation is a
plain structural recursion.
-/

deriving instance DecidableEq for Except

namespace Httper

/-- Break a character list at the first occurrence of `sep`: returns the
characters before it and the characters after it, or `none` when `sep` does
not occur.  Models Rust `str::split_once`. -/
def breakAt (sep : Char) : List Char → Option (List Char × List Char)
  | [] => none
  | c :: cs =>
    if c = sep then some ([], cs)
    else
      match breakAt sep cs with
      | none => none
      | some (a, b) => some (c :: a, b)

/-- Accumulator form of whitespace splitting. -/
def splitWsAux : List Char → List Char → List (List Char)
  | [], acc => if acc = [] then [] else [acc.reverse]
  | c :: cs, acc =>
    if c.isWhitespace then
      if acc = [] then splitWsAux cs []
      else acc.reverse :: splitWsAux cs []
    else splitWsAux cs (c :: acc)

/-- Whitespace-separated tokens of a line.  Models Rust
`str::split_whitespace`: maximal runs of non-whitespace characters, empty
tokens never produced. -/
def tokensOf (line : String) : List String :=
  (splitWsAux line.data []).map String.mk

/-- Split a character list at newline characters; always returns at least one
(possibly empty) line. -/
def splitNl : List Char → List (List Char)
  | [] => [[]]
  | c :: cs =>
    if c = '\n' then [] :: splitNl cs
    else
      match splitNl cs with
      | [] => [[c]]
      | l :: ls => (c :: l) :: ls

/-- The lines of the file text.  Models Rust `str::lines` (modulo a possible
final empty line, which the block splitter discards as blank). -/
def linesOf (text : String) : List String :=
  (splitNl text.data).map String.mk

/-- A line consisting only of whitespace (this includes the empty line). -/
def isBlankLine (s : String) : Bool :=
  s.data.all fun c => c.isWhitespace

/-- Trim leading and trailing whitespace.  Models Rust `str::trim`. -/
def strTrim (s : String) : String :=
  String.mk (((s.data.dropWhile fun c => c.isWhitespace).reverse.dropWhile
    fun c => c.isWhitespace).reverse)

/-- ASCII-lowercase a string. -/
def lowerStr (s : String) : String :=
  String.mk (s.data.map Char.toLower)

/-- Accumulator form of segmenting lines at blank lines. -/
def segmentsAux : List String → List String → List (List String)
  | [], acc => if acc = [] then [] else [acc.reverse]
  | l :: ls, acc =>
    if isBlankLine l then
      if acc = [] then segmentsAux ls []
      else acc.reverse :: segmentsAux ls []
    else segmentsAux ls (l :: acc)

/-- Maximal runs of non-blank lines: one or more blank lines separate
segments, leading and trailing blank lines are discarded (spec section 4.1). -/
def segments (lines : List String) : List (List String) :=
  segmentsAux lines []

/-- Error taxonomy, embedded from `src/error.rs`.  `reqwest::Error` and
`url::ParseError` payloads are modelled as their diagnostic strings. -/
inductive Error where
  | RequestError (msg : String)
  | ResponseBodyError (msg : String)
  | InvalidHeader (line : String)
  | InvalidMethod (token : String)
  | InvalidUrl (text : String) (cause : String)
  | EmptyRequest
  | NoRequestLine
  | NotEnoughParts (line : String)
deriving DecidableEq, Repr

/-- Modelled from the spec: parsing can fail either with a variant of the
`Error` enum of `src/error.rs` or, for multipart file attachments whose path
cannot be read, with a distinct I/O-kind error carrying the resolved path
(spec section 7: filesystem resolution failure is surfaced as a distinct
I/O-kind error). -/
inductive ParseError where
  | app (e : Error)
  | ioError (path : String)
deriving DecidableEq, Repr

/-- A parsed `Name: value` header line (spec section 3). -/
structure HeaderEntry where
  name : String
  value : String
deriving DecidableEq, Repr

/-- Modelled from the spec: an absolute URL, scheme plus authority-and-path
remainder (spec section 3: URL parses to an absolute URL, scheme and
authority required). -/
structure ParsedUrl where
  scheme : String
  rest : String
deriving DecidableEq, Repr

/-- Parsed request line: method and target URL (spec section 3). -/
structure RequestLine where
  method : String
  url : ParsedUrl
deriving DecidableEq, Repr

/-- Modelled from the spec: one part of a multipart form body — either an
inline field or a file attachment with its resolved path and contents
(spec section 3). -/
inductive MultipartPart where
  | field (name : String) (value : String)
  | file (name : String) (path : String) (resolved : String) (contents : String)
deriving DecidableEq, Repr

/-- Body variants (spec section 3): absent, raw text, URL-encoded form, or
multipart form. -/
inductive Body where
  | none
  | raw (text : String)
  | urlEncodedForm (pairs : List (String × String))
  | multipartForm (parts : List MultipartPart)
deriving DecidableEq, Repr

/-- The assembled, transport-ready request value (spec section 3).  The
caller-supplied client handle is opaque to the parser and carries no
parser-visible state, so it is not part of the model. -/
structure BuiltRequest where
  method : String
  url : ParsedUrl
  headers : List HeaderEntry
  body : Body
deriving DecidableEq, Repr

/-- One request block: the request-line-and-headers lines and the body-region
lines (spec section 3). -/
structure RequestBlock where
  headLines : List String
  bodyLines : List String
deriving DecidableEq, Repr

/-- Does a segment (beyond its request line) contain a `Content-Type` header
line?  Used by the block splitter to attach a body segment (spec section 4.4:
body-kind determination is driven by the Content-Type header, not by guessing
from content). -/
def hasContentType (seg : List String) : Bool :=
  (seg.drop 1).any fun l =>
    match breakAt ':' l.data with
    | some (n, _) => lowerStr (strTrim (String.mk n)) = "content-type"
    | Option.none => false

/-- Modelled from the spec: group the blank-line-separated segments into
request blocks.  A segment holds a request line and headers; when its headers
announce a Content-Type, the following segment (if any) is taken as its body
region, otherwise the body region is empty.  The spec leaves the exact
delimiter convention open (section 9) and fixes blank lines as the separator
policy (section 4.1) with body-kind determination driven by the Content-Type
header (section 4.4); this grouping is the deterministic reading of that
grammar. -/
def pairSegments : List (List String) → List RequestBlock
  | [] => []
  | seg :: rest =>
    if hasContentType seg then
      match rest with
      | [] => [⟨seg, []⟩]
      | b :: rest2 => ⟨seg, b⟩ :: pairSegments rest2
    else
      ⟨seg, []⟩ :: pairSegments rest

/-- Modelled from the spec: the Block Splitter (section 4.1) — file text to
ordered request blocks. -/
def splitBlocks (text : String) : List RequestBlock :=
  pairSegments (segments (linesOf text))

/-- Modelled from the spec: a known HTTP method token, case-sensitive
uppercase convention (section 4.2; the testable property in section 8 makes
`FOO` invalid). -/
def isValidMethod (m : String) : Bool :=
  m ∈ ["GET", "POST", "PUT", "DELETE", "HEAD", "OPTIONS", "PATCH", "TRACE",
       "CONNECT"]

/-- A syntactically valid URL scheme: nonempty, starts with a letter,
continues with letters, digits, `+`, `-` or `.`. -/
def isValidScheme : List Char → Bool
  | [] => false
  | c :: cs =>
    c.isAlpha && cs.all fun d => d.isAlpha || d.isDigit || d = '+' || d = '-' || d = '.'

/-- Modelled from the spec: absolute-URL parsing — scheme and authority
required (section 3); the diagnostic strings mirror the `url` crate's
displays.  Returns the parsed URL or the parser's diagnostic. -/
def parseUrl (s : String) : Except String ParsedUrl :=
  match breakAt ':' s.data with
  | Option.none => Except.error "relative URL without a base"
  | some (sch, rest) =>
    if isValidScheme sch then
      match rest with
      | '/' :: '/' :: auth =>
        if auth = [] then Except.error "empty host"
        else Except.ok ⟨String.mk sch, String.mk auth⟩
      | _ => Except.error "relative URL without a base"
    else Except.error "relative URL without a base"

/-- Modelled from the spec: the Request-Line Parser (section 4.2).  Splits the
first line on whitespace; fewer than two tokens is `NotEnoughParts` carrying
the line; the first token must be a valid method, the second an absolute URL;
any further tokens are ignored. -/
def parseRequestLine (line : String) : Except Error RequestLine :=
  match tokensOf line with
  | m :: u :: _ =>
    if isValidMethod m then
      match parseUrl u with
      | Except.ok pu => Except.ok ⟨m, pu⟩
      | Except.error cause => Except.error (Error.InvalidUrl u cause)
    else Except.error (Error.InvalidMethod m)
  | _ => Except.error (Error.NotEnoughParts line)

/-- Modelled from the spec: an HTTP header token character (the `tchar` set):
alphanumeric or one of the listed punctuation marks; the apostrophe (39) and
backtick (96) members are written by code point. -/
def isTokenChar (c : Char) : Bool :=
  c.isAlphanum ||
    c ∈ ['!', '#', '$', '%', '&', '*', '+', '-', '.', '^', '_', '|', '~'] ||
    c.toNat = 39 || c.toNat = 96

/-- Modelled from the spec: a valid header name is a nonempty HTTP token
(section 3: name matches HTTP header token syntax). -/
def isValidHeaderName (n : String) : Bool :=
  !n.isEmpty && n.data.all isTokenChar

/-- Modelled from the spec: a valid header value contains no forbidden
control characters — code points below 32 other than horizontal tab, and 127
(section 3: value contains no control characters forbidden by header value
syntax). -/
def isValidHeaderValue (v : String) : Bool :=
  v.data.all fun c => (32 ≤ c.toNat && c.toNat ≠ 127) || c = '\t'

/-- Modelled from the spec: the Header Parser for one line (section 4.3).  The
line must contain a colon, the name before it must satisfy header token
syntax and the trimmed value must be free of forbidden control characters; a
line violating any of these fails with `InvalidHeader` carrying the line.
The name is taken verbatim, the value is trimmed of surrounding
whitespace. -/
def parseHeaderLine (l : String) : Except Error HeaderEntry :=
  match breakAt ':' l.data with
  | Option.none => Except.error (Error.InvalidHeader l)
  | some (n, v) =>
    if isValidHeaderName (String.mk n) &&
        isValidHeaderValue (strTrim (String.mk v)) then
      Except.ok ⟨String.mk n, strTrim (String.mk v)⟩
    else Except.error (Error.InvalidHeader l)

/-- Fail-fast effectful map: the first error aborts the traversal and is
returned alone; on success the results are returned in order.  This is the
`?`-propagation shape of the Rust parser loop. -/
def mapExcept (f : α → Except ε β) : List α → Except ε (List β)
  | [] => Except.ok []
  | a :: as =>
    match f a with
    | Except.error e => Except.error e
    | Except.ok b =>
      match mapExcept f as with
      | Except.error e => Except.error e
      | Except.ok bs => Except.ok (b :: bs)

/-- Boolean success test for `Except`. -/
def exceptIsOk : Except ε α → Bool
  | Except.ok _ => true
  | Except.error _ => false

/-- Look up the Content-Type header value (name compared
case-insensitively after trimming). -/
def contentTypeOf (headers : List HeaderEntry) : Option String :=
  (headers.find? fun h => lowerStr (strTrim h.name) = "content-type").map
    fun h => h.value

/-- Modelled from the spec: URL-encoded form pairs — each line's
`&`-delimited segments split on the first `=` (section 4.4); percent-decoding
is the transport client's concern and is not performed. -/
def parseFormPairs (bodyLines : List String) : List (String × String) :=
  bodyLines.flatMap fun l =>
    (l.splitOn "&").filterMap fun seg =>
      match breakAt '=' seg.data with
      | some (k, v) => some (String.mk k, String.mk v)
      | Option.none =>
        if seg.isEmpty then Option.none else some (seg, "")

/-- Join a relative path onto the base directory with ordinary path joining;
an absolute path stands alone (spec section 4.4). -/
def joinPath (dir path : String) : String :=
  if path.data.head? = some '/' then path else dir ++ "/" ++ path

/-- Modelled from the spec: one multipart part from its marker line
(section 4.4; the exact marker syntax is left open in section 9, so the
common `name=value` / `name=@path` convention is fixed here).  A file part's
path is resolved against the base directory and read through the injected
filesystem immediately — a missing file is a parse-time I/O error carrying
the resolved path. -/
def parsePart (fs : String → Option String) (dir : String) (l : String) :
    Except ParseError MultipartPart :=
  match breakAt '=' l.data with
  | Option.none => Except.ok (MultipartPart.field l "")
  | some (n, v) =>
    match v with
    | '@' :: pathChars =>
      let path := String.mk pathChars
      let resolved := joinPath dir path
      match fs resolved with
      | Option.none => Except.error (ParseError.ioError resolved)
      | some contents =>
        Except.ok (MultipartPart.file (String.mk n) path resolved contents)
    | _ => Except.ok (MultipartPart.field (String.mk n) (String.mk v))

/-- Modelled from the spec: the Body Resolver (section 4.4).  Body kind is
driven by the Content-Type header: absent means no body; URL-encoded and
multipart forms are parsed; any other content type keeps the body region
verbatim as a raw body.  Multipart file attachments are resolved eagerly
through the injected filesystem. -/
def resolveBody (fs : String → Option String) (dir : String)
    (headers : List HeaderEntry) (bodyLines : List String) :
    Except ParseError Body :=
  match contentTypeOf headers with
  | Option.none => Except.ok Body.none
  | some ct =>
    if ct = "application/x-www-form-urlencoded" then
      Except.ok (Body.urlEncodedForm (parseFormPairs bodyLines))
    else if ct = "multipart/form-data" then
      match mapExcept (parsePart fs dir) bodyLines with
      | Except.error e => Except.error e
      | Except.ok parts => Except.ok (Body.multipartForm parts)
    else
      Except.ok (Body.raw (String.intercalate "\n" bodyLines))

/-- Modelled from the spec: parse and assemble one request block
(sections 4.2–4.5): request line, then headers, then body, each stage
aborting on its first error. -/
def buildRequest (fs : String → Option String) (dir : String)
    (b : RequestBlock) : Except ParseError BuiltRequest :=
  match b.headLines with
  | [] => Except.error (ParseError.app Error.NoRequestLine)
  | line :: rest =>
    match parseRequestLine line with
    | Except.error e => Except.error (ParseError.app e)
    | Except.ok rl =>
      match mapExcept parseHeaderLine rest with
      | Except.error e => Except.error (ParseError.app e)
      | Except.ok headers =>
        match resolveBody fs dir headers b.bodyLines with
        | Except.error pe => Except.error pe
        | Except.ok body => Except.ok ⟨rl.method, rl.url, headers, body⟩

/-- Modelled from the spec: `parse_requests` (sections 4.1 and 7) — split the
file text into blocks, fail with `EmptyRequest` when there are none, and
otherwise build every block's request in order, aborting the whole file at
the first failing block. -/
def parse_requests (fs : String → Option String) (dir : String)
    (content : String) : Except ParseError (List BuiltRequest) :=
  if (splitBlocks content).isEmpty then
    Except.error (ParseError.app Error.EmptyRequest)
  else mapExcept (buildRequest fs dir) (splitBlocks content)

/-- The send loop of `src/main.rs` lines 55–57: requests are sent in order
and the `Result` of each send is unwrapped, so the first send failure aborts
the program.  The transport is injected; the returned pair is the list of
requests actually handed to the transport, in order, and the first failure if
any. -/
def runSend (send : BuiltRequest → Except String Unit) :
    List BuiltRequest → List BuiltRequest × Option String
  | [] => ([], Option.none)
  | r :: rs =>
    match send r with
    | Except.ok _ =>
      let p := runSend send rs
      (r :: p.1, p.2)
    | Except.error e => ([r], some e)

/-- A filesystem path: absolute flag plus components, modelling
`std::path::PathBuf` at the component level. -/
structure FsPath where
  absolute : Bool
  components : List String
deriving DecidableEq, Repr

/-- `Path::join`: an absolute right-hand path replaces the left-hand one,
otherwise the components are appended. -/
def FsPath.join (p q : FsPath) : FsPath :=
  if q.absolute then q else ⟨p.absolute, p.components ++ q.components⟩

/-- `Path::parent`: drop the last component; `none` when there is none. -/
def FsPath.parent (p : FsPath) : Option FsPath :=
  match p.components with
  | [] => Option.none
  | _ => some ⟨p.absolute, p.components.dropLast⟩

/-- The base-directory computation of `src/main.rs` lines 44–45: the current
working directory joined with the file path argument, then the parent of the
result. -/
def baseDirectory (cwd filepath : FsPath) : Option FsPath :=
  (FsPath.join cwd filepath).parent

/-! ### Helper lemmas -/

theorem exceptIsOk_iff {x : Except ε α} :
    exceptIsOk x = true ↔ ∃ y, x = Except.ok y := by
  cases x <;> simp [exceptIsOk]

theorem mapExcept_ok_length {f : α → Except ε β} :
    ∀ {l : List α} {l2 : List β}, mapExcept f l = Except.ok l2 →
      l2.length = l.length := by
  intro l
  induction l with
  | nil => intro l2 h; simp [mapExcept] at h; simp [← h]
  | cons a as ih =>
    intro l2 h
    simp only [mapExcept] at h
    cases hfa : f a with
    | error e => rw [hfa] at h; exact absurd h (by simp)
    | ok b =>
      rw [hfa] at h
      cases hrest : mapExcept f as with
      | error e => rw [hrest] at h; exact absurd h (by simp)
      | ok bs =>
        rw [hrest] at h
        cases h
        simp [ih hrest]

theorem mapExcept_ok_get {f : α → Except ε β} :
    ∀ {l : List α} {l2 : List β}, mapExcept f l = Except.ok l2 →
      ∀ i b, l.get? i = some b → ∃ r, l2.get? i = some r ∧ f b = Except.ok r := by
  intro l
  induction l with
  | nil => intro l2 _ i b hb; simp at hb
  | cons a as ih =>
    intro l2 h i b hb
    simp only [mapExcept] at h
    cases hfa : f a with
    | error e => rw [hfa] at h; exact absurd h (by simp)
    | ok r0 =>
      rw [hfa] at h
      cases hrest : mapExcept f as with
      | error e => rw [hrest] at h; exact absurd h (by simp)
      | ok bs =>
        rw [hrest] at h
        cases h
        cases i with
        | zero =>
          simp only [List.get?] at hb
          cases hb
          exact ⟨r0, rfl, hfa⟩
        | succ j =>
          simp only [List.get?] at hb ⊢
          exact ih hrest j b hb

theorem mapExcept_error_first {f : α → Except ε β} {b : α} {e : ε} :
    ∀ {bs1 : List α} (bs2 : List α),
      (∀ b2 ∈ bs1, exceptIsOk (f b2) = true) → f b = Except.error e →
      mapExcept f (bs1 ++ b :: bs2) = Except.error e := by
  intro bs1
  induction bs1 with
  | nil =>
    intro bs2 _ hfb
    simp only [List.nil_append, mapExcept, hfb]
  | cons a as ih =>
    intro bs2 hok hfb
    have ha : exceptIsOk (f a) = true := hok a (List.mem_cons_self a as)
    obtain ⟨y, hy⟩ := exceptIsOk_iff.mp ha
    have has : ∀ b2 ∈ as, exceptIsOk (f b2) = true := fun b2 hb2 =>
      hok b2 (List.mem_cons_of_mem a hb2)
    simp only [List.cons_append, mapExcept, hy, List.append_eq, ih bs2 has hfb]

theorem splitNl_mem : ∀ {cs : List Char} {l : List Char},
    l ∈ splitNl cs → ∀ c ∈ l, c ∈ cs := by
  intro cs
  induction cs with
  | nil =>
    intro l hl c hc
    simp [splitNl] at hl
    subst hl
    simp at hc
  | cons d ds ih =>
    intro l hl c hc
    simp only [splitNl] at hl
    by_cases hd : d = '\n'
    · rw [if_pos hd] at hl
      rcases List.mem_cons.mp hl with h1 | h2
      · subst h1; simp at hc
      · exact List.mem_cons_of_mem d (ih h2 c hc)
    · rw [if_neg hd] at hl
      cases hsp : splitNl ds with
      | nil => rw [hsp] at hl; simp at hl; subst hl; simp at hc; simp [hc]
      | cons l0 ls =>
        rw [hsp] at hl
        rcases List.mem_cons.mp hl with h1 | h2
        · subst h1
          rcases List.mem_cons.mp hc with h3 | h4
          · subst h3; exact List.mem_cons_self c ds
          · exact List.mem_cons_of_mem d (ih (hsp ▸ List.mem_cons_self l0 ls) c h4)
        · exact List.mem_cons_of_mem d
            (ih (hsp ▸ List.mem_cons_of_mem l0 h2) c hc)

theorem segmentsAux_nil_of_blank : ∀ {lines : List String},
    (∀ l ∈ lines, isBlankLine l = true) → segmentsAux lines [] = [] := by
  intro lines
  induction lines with
  | nil => intro _; simp [segmentsAux]
  | cons l ls ih =>
    intro hb
    have hl : isBlankLine l = true := hb l (List.mem_cons_self l ls)
    have hls : ∀ l2 ∈ ls, isBlankLine l2 = true := fun l2 h2 =>
      hb l2 (List.mem_cons_of_mem l h2)
    simp only [segmentsAux, hl, if_true, if_pos rfl]
    exact ih hls

theorem breakAt_of_not_mem {sep : Char} : ∀ {cs : List Char},
    sep ∉ cs → breakAt sep cs = Option.none := by
  intro cs
  induction cs with
  | nil => intro _; rfl
  | cons c cs ih =>
    intro h
    have hc : ¬ c = sep := fun he => h (he ▸ List.mem_cons_self c cs)
    have hcs : sep ∉ cs := fun hm => h (List.mem_cons_of_mem c hm)
    simp only [breakAt, if_neg hc, ih hcs]

theorem breakAt_append {sep : Char} : ∀ {xs : List Char} (ys : List Char),
    sep ∉ xs → breakAt sep (xs ++ sep :: ys) = some (xs, ys) := by
  intro xs
  induction xs with
  | nil => intro ys _; simp [breakAt]
  | cons x xs ih =>
    intro ys h
    have hx : ¬ x = sep := fun he => h (he ▸ List.mem_cons_self x xs)
    have hxs : sep ∉ xs := fun hm => h (List.mem_cons_of_mem x hm)
    simp only [List.cons_append, breakAt, if_neg hx, List.append_eq, ih ys hxs]

theorem runSend_take (send : BuiltRequest → Except String Unit) :
    ∀ l : List BuiltRequest, ∃ k, (runSend send l).1 = l.take k := by
  intro l
  induction l with
  | nil => exact ⟨0, rfl⟩
  | cons r rs ih =>
    cases hs : send r with
    | ok u => obtain ⟨k, hk⟩ := ih; exact ⟨k + 1, by simp [runSend, hs, hk]⟩
    | error e => exact ⟨1, by simp [runSend, hs]⟩

/-! ### Claim theorems -/

/-- The empty in-memory filesystem stand-in: no path is readable. -/
def fsEmpty : String → Option String := fun _ => Option.none

/-- C1: parsing a request file is fail-fast and all-or-nothing — a successful
parse returns one built request per block, in block order, and whenever some
block fails to build while every block before it succeeds, the whole file's
parse returns that single error and no sequence of built requests at all. -/
theorem parse_requests_all_or_nothing (fs : String → Option String)
    (dir content : String) :
    (∀ l, parse_requests fs dir content = Except.ok l →
      l.length = (splitBlocks content).length ∧
      ∀ i b, (splitBlocks content).get? i = some b →
        ∃ r, l.get? i = some r ∧ buildRequest fs dir b = Except.ok r) ∧
    (∀ e b bs1 bs2, splitBlocks content = bs1 ++ b :: bs2 →
      (∀ b2 ∈ bs1, exceptIsOk (buildRequest fs dir b2) = true) →
      buildRequest fs dir b = Except.error e →
      parse_requests fs dir content = Except.error e) := by
  constructor
  · intro l h
    unfold parse_requests at h
    split at h
    · exact absurd h (by simp)
    · exact ⟨mapExcept_ok_length h, mapExcept_ok_get h⟩
  · intro e b bs1 bs2 hsplit hok hfb
    have hne : ¬ (splitBlocks content).isEmpty = true := by
      rw [hsplit]; simp
    unfold parse_requests
    rw [if_neg hne, hsplit]
    exact mapExcept_error_first bs2 hok hfb

/-- A file with three requests where the second is malformed: the parse
returns the single error for the second block and no request sequence. -/
theorem parse_requests_all_or_nothing_witness :
    parse_requests fsEmpty "/d" "GET http://a.com\n\nBADLINE\n\nGET http://b.com" =
      Except.error (ParseError.app (Error.NotEnoughParts "BADLINE")) :=
  (parse_requests_all_or_nothing fsEmpty "/d" _).2
    (ParseError.app (Error.NotEnoughParts "BADLINE")) ⟨["BADLINE"], []⟩
    [⟨["GET http://a.com"], []⟩] [⟨["GET http://b.com"], []⟩]
    (by decide) (by decide) (by decide)

/-- C2: a file whose text is only whitespace and blank lines parses to the
`EmptyRequest` error, and a successful parse never returns zero requests. -/
theorem parse_requests_empty_input (fs : String → Option String)
    (dir content : String) :
    ((content.data.all fun c => c.isWhitespace) = true →
      parse_requests fs dir content =
        Except.error (ParseError.app Error.EmptyRequest)) ∧
    (∀ l, parse_requests fs dir content = Except.ok l → l ≠ []) := by
  constructor
  · intro hws
    have hblank : ∀ l ∈ linesOf content, isBlankLine l = true := by
      intro l hl
      simp only [linesOf, List.mem_map] at hl
      obtain ⟨lc, hlc, rfl⟩ := hl
      simp only [isBlankLine, List.all_eq_true]
      intro c hc
      exact (List.all_eq_true.mp hws) c (splitNl_mem hlc c hc)
    have hblocks : splitBlocks content = [] := by
      simp [splitBlocks, segments, segmentsAux_nil_of_blank hblank, pairSegments]
    unfold parse_requests
    rw [hblocks]
    rfl
  · intro l h hnil
    unfold parse_requests at h
    split at h
    · exact absurd h (by simp)
    · rename_i hne
      have hlen := mapExcept_ok_length h
      rw [hnil] at hlen
      have : splitBlocks content = [] := List.length_eq_zero.mp hlen.symm
      rw [this] at hne
      exact hne rfl

/-- A whitespace-only file fails with `EmptyRequest`, and a one-request file
does not parse to the empty sequence. -/
theorem parse_requests_empty_input_witness :
    parse_requests fsEmpty "/d" "  \n\t\n " =
      Except.error (ParseError.app Error.EmptyRequest) ∧
    parse_requests fsEmpty "/d" "GET http://a.com" ≠ Except.ok [] :=
  ⟨(parse_requests_empty_input fsEmpty "/d" _).1 (by decide),
   fun h => (parse_requests_empty_input fsEmpty "/d" _).2 [] h rfl⟩

theorem strMk_data (s : String) : String.mk s.data = s := rfl

theorem buildRequest_line_error (fs : String → Option String) (dir : String)
    (line : String) (hs bl : List String) (e : Error)
    (h : parseRequestLine line = Except.error e) :
    buildRequest fs dir ⟨line :: hs, bl⟩ = Except.error (ParseError.app e) := by
  simp [buildRequest, h]

theorem parseRequestLine_short (line : String)
    (h : (tokensOf line).length < 2) :
    parseRequestLine line = Except.error (Error.NotEnoughParts line) := by
  unfold parseRequestLine
  cases ht : tokensOf line with
  | nil => rfl
  | cons m rest =>
    cases rest with
    | nil => rfl
    | cons u rest2 => rw [ht] at h; simp at h; omega

theorem parseRequestLine_ok_method {line m u : String} {r : List String}
    {rl : RequestLine} (ht : tokensOf line = m :: u :: r)
    (h : parseRequestLine line = Except.ok rl) : rl.method = m := by
  unfold parseRequestLine at h
  rw [ht] at h
  simp only at h
  by_cases hm : isValidMethod m = true
  · rw [if_pos hm] at h
    cases hu : parseUrl u with
    | error c => rw [hu] at h; exact absurd h (by simp)
    | ok pu => rw [hu] at h; cases h; rfl
  · rw [if_neg hm] at h; exact absurd h (by simp)

theorem FsPath.parent_of_ne_nil (p : FsPath) (h : p.components ≠ []) :
    FsPath.parent p = some ⟨p.absolute, p.components.dropLast⟩ := by
  unfold FsPath.parent
  cases hc : p.components with
  | nil => exact absurd hc h
  | cons x xs => simp [hc]

/-- C3: a file splitting into exactly two well-formed blocks parses to
exactly the two built requests, each determined by its own block alone, in
file order; and the send loop visits built requests as a prefix of that file
order. -/
theorem parse_requests_two_blocks (fs : String → Option String)
    (dir content : String) (b1 b2 : RequestBlock) (r1 r2 : BuiltRequest)
    (h : splitBlocks content = [b1, b2])
    (h1 : buildRequest fs dir b1 = Except.ok r1)
    (h2 : buildRequest fs dir b2 = Except.ok r2) :
    parse_requests fs dir content = Except.ok [r1, r2] ∧
    ∀ send, ∃ k, (runSend send [r1, r2]).1 = List.take k [r1, r2] := by
  constructor
  · unfold parse_requests
    rw [h]
    simp [mapExcept, h1, h2]
  · intro send
    exact runSend_take send [r1, r2]

/-- A two-request file parses to its two requests in file order. -/
theorem parse_requests_two_blocks_witness :
    parse_requests fsEmpty "/d" "GET http://a.com\n\nPOST http://b.com\nX-H: v" =
      Except.ok [⟨"GET", ⟨"http", "a.com"⟩, [], Body.none⟩,
        ⟨"POST", ⟨"http", "b.com"⟩, [⟨"X-H", "v"⟩], Body.none⟩] ∧
    ∃ k, (runSend (fun _ => Except.ok ())
      [⟨"GET", ⟨"http", "a.com"⟩, [], Body.none⟩,
       ⟨"POST", ⟨"http", "b.com"⟩, [⟨"X-H", "v"⟩], Body.none⟩]).1 =
      List.take k [⟨"GET", ⟨"http", "a.com"⟩, [], Body.none⟩,
        ⟨"POST", ⟨"http", "b.com"⟩, [⟨"X-H", "v"⟩], Body.none⟩] :=
  ⟨(parse_requests_two_blocks fsEmpty "/d" _ ⟨["GET http://a.com"], []⟩
      ⟨["POST http://b.com", "X-H: v"], []⟩ _ _
      (by decide) (by decide) (by decide)).1,
   (parse_requests_two_blocks fsEmpty "/d"
      "GET http://a.com\n\nPOST http://b.com\nX-H: v"
      ⟨["GET http://a.com"], []⟩ ⟨["POST http://b.com", "X-H: v"], []⟩ _ _
      (by decide) (by decide) (by decide)).2 (fun _ => Except.ok ())⟩

/-- C5: a block whose first line has fewer than two whitespace-separated
tokens fails to build with `NotEnoughParts` carrying that exact line, while
the request-line parse of any line with at least two tokens depends only on
the first two tokens — trailing tokens are accepted and ignored. -/
theorem request_line_token_arity :
    (∀ (fs : String → Option String) (dir : String) (hs bl : List String)
      (line : String), (tokensOf line).length < 2 →
      buildRequest fs dir ⟨line :: hs, bl⟩ =
        Except.error (ParseError.app (Error.NotEnoughParts line))) ∧
    (∀ l1 l2 m u : String, ∀ r1 r2 : List String,
      tokensOf l1 = m :: u :: r1 → tokensOf l2 = m :: u :: r2 →
      parseRequestLine l1 = parseRequestLine l2) := by
  constructor
  · intro fs dir hs bl line h
    exact buildRequest_line_error fs dir line hs bl _ (parseRequestLine_short line h)
  · intro l1 l2 m u r1 r2 ht1 ht2
    unfold parseRequestLine
    rw [ht1, ht2]

/-- A one-token request line fails with `NotEnoughParts`; an `HTTP/1.1`
version marker after the URL changes nothing. -/
theorem request_line_token_arity_witness :
    buildRequest fsEmpty "/d" ⟨["JUSTONE"], []⟩ =
      Except.error (ParseError.app (Error.NotEnoughParts "JUSTONE")) ∧
    parseRequestLine "GET http://a.com HTTP/1.1" =
      parseRequestLine "GET http://a.com" :=
  ⟨(request_line_token_arity).1 fsEmpty "/d" [] [] "JUSTONE" (by decide),
   (request_line_token_arity).2 "GET http://a.com HTTP/1.1" "GET http://a.com"
     "GET" "http://a.com" ["HTTP/1.1"] [] (by decide) (by decide)⟩

/-- C6: a block whose request-line's first token is not a valid HTTP method
fails to build with `InvalidMethod` carrying that exact token, and a built
request's method is exactly the first token of its request line. -/
theorem method_token_validation :
    (∀ (fs : String → Option String) (dir : String) (hs bl : List String)
      (line m u : String) (r : List String),
      tokensOf line = m :: u :: r → isValidMethod m = false →
      buildRequest fs dir ⟨line :: hs, bl⟩ =
        Except.error (ParseError.app (Error.InvalidMethod m))) ∧
    (∀ (fs : String → Option String) (dir : String) (b : RequestBlock)
      (req : BuiltRequest) (line m u : String) (r : List String),
      b.headLines.head? = some line → tokensOf line = m :: u :: r →
      buildRequest fs dir b = Except.ok req → req.method = m) := by
  constructor
  · intro fs dir hs bl line m u r ht hm
    apply buildRequest_line_error
    unfold parseRequestLine
    rw [ht]
    simp [hm]
  · intro fs dir b req line m u r hhead ht hok
    cases b with
    | mk hls bls =>
      cases hls with
      | nil => simp at hhead
      | cons line0 rest =>
        have heq : line0 = line := by simpa using hhead
        unfold buildRequest at hok
        simp only at hok
        cases hpl : parseRequestLine line0 with
        | error e => simp [hpl] at hok
        | ok rl =>
          simp only [hpl] at hok
          cases hhd : mapExcept parseHeaderLine rest with
          | error e => simp [hhd] at hok
          | ok headers =>
            simp only [hhd] at hok
            cases hb : resolveBody fs dir headers bls with
            | error pe => simp [hb] at hok
            | ok body =>
              simp only [hb] at hok
              cases hok
              exact parseRequestLine_ok_method (heq ▸ ht) hpl

/-- A `FOO` method fails with `InvalidMethod FOO`; a `GET` request's built
method is exactly `GET`. -/
theorem method_token_validation_witness :
    buildRequest fsEmpty "/d" ⟨["FOO http://example.com"], []⟩ =
      Except.error (ParseError.app (Error.InvalidMethod "FOO")) ∧
    BuiltRequest.method ⟨"GET", ⟨"http", "example.com"⟩, [], Body.none⟩ = "GET" :=
  ⟨(method_token_validation).1 fsEmpty "/d" [] [] "FOO http://example.com"
     "FOO" "http://example.com" [] (by decide) (by decide),
   (method_token_validation).2 fsEmpty "/d" ⟨["GET http://example.com"], []⟩
     ⟨"GET", ⟨"http", "example.com"⟩, [], Body.none⟩ "GET http://example.com"
     "GET" "http://example.com" [] rfl (by decide) (by decide)⟩

/-- C7: a block whose request-line's second token is rejected by the URL
parser fails to build with `InvalidUrl` carrying the original literal string
and the URL parser's diagnostic as the cause. -/
theorem url_token_validation (fs : String → Option String) (dir : String)
    (hs bl : List String) (line m u cause : String) (r : List String)
    (ht : tokensOf line = m :: u :: r) (hm : isValidMethod m = true)
    (hu : parseUrl u = Except.error cause) :
    buildRequest fs dir ⟨line :: hs, bl⟩ =
      Except.error (ParseError.app (Error.InvalidUrl u cause)) := by
  apply buildRequest_line_error
  unfold parseRequestLine
  rw [ht]
  simp [hm, hu]

/-- A `GET not-a-url` block fails with `InvalidUrl` carrying `not-a-url` and
the relative-URL diagnostic. -/
theorem url_token_validation_witness :
    buildRequest fsEmpty "/d" ⟨["GET not-a-url"], []⟩ =
      Except.error (ParseError.app
        (Error.InvalidUrl "not-a-url" "relative URL without a base")) :=
  url_token_validation fsEmpty "/d" [] [] "GET not-a-url" "GET" "not-a-url"
    "relative URL without a base" [] (by decide) (by decide) (by decide)

/-- C8: a header line lacking a colon fails with `InvalidHeader` carrying
that exact line; a well-formed line — token-syntax name, colon, value whose
trimmed form is free of forbidden control characters — parses to that name
with the value trimmed of surrounding whitespace; and a line whose name or
value violates that syntax fails with `InvalidHeader` carrying the line. -/
theorem header_line_colon :
    (∀ l : String, ':' ∉ l.data →
      parseHeaderLine l = Except.error (Error.InvalidHeader l)) ∧
    (∀ l n v : String, l.data = n.data ++ ':' :: v.data → ':' ∉ n.data →
      isValidHeaderName n = true → isValidHeaderValue (strTrim v) = true →
      parseHeaderLine l = Except.ok ⟨n, strTrim v⟩) ∧
    (∀ l n v : String, l.data = n.data ++ ':' :: v.data → ':' ∉ n.data →
      isValidHeaderName n = false ∨ isValidHeaderValue (strTrim v) = false →
      parseHeaderLine l = Except.error (Error.InvalidHeader l)) := by
  refine ⟨?_, ?_, ?_⟩
  · intro l h
    unfold parseHeaderLine
    rw [breakAt_of_not_mem h]
  · intro l n v hdata hn h1 h2
    unfold parseHeaderLine
    rw [hdata, breakAt_append v.data hn]
    simp [strMk_data, h1, h2]
  · intro l n v hdata hn hbad
    unfold parseHeaderLine
    rw [hdata, breakAt_append v.data hn]
    rcases hbad with h | h <;> simp [strMk_data, h]

/-- `X-Test no-colon` fails with `InvalidHeader`; `X-Test: value` parses to
name `X-Test` and trimmed value `value`; `bad name: v`, whose name violates
header token syntax, fails with `InvalidHeader` carrying that line. -/
theorem header_line_colon_witness :
    parseHeaderLine "X-Test no-colon" =
      Except.error (Error.InvalidHeader "X-Test no-colon") ∧
    parseHeaderLine "X-Test: value" = Except.ok ⟨"X-Test", "value"⟩ ∧
    parseHeaderLine "bad name: v" =
      Except.error (Error.InvalidHeader "bad name: v") :=
  ⟨(header_line_colon).1 "X-Test no-colon" (by decide),
   ((header_line_colon).2.1 "X-Test: value" "X-Test" " value"
     (by decide) (by decide) (by decide) (by decide)).trans (by decide),
   (header_line_colon).2.2 "bad name: v" "bad name" " v"
     (by decide) (by decide) (Or.inl (by decide))⟩

/-- C9: the base directory handed to the parser is the parent of the request
file's path joined onto the current working directory; for a nonempty
relative file path this is the working directory extended with the file
path's components short of the last, and for a nonempty absolute file path it
is the file path's components short of the last. -/
theorem base_directory_is_parent_of_join :
    (∀ cwd fp : FsPath,
      baseDirectory cwd fp = FsPath.parent (FsPath.join cwd fp)) ∧
    (∀ cwd fp : FsPath, fp.absolute = false → fp.components ≠ [] →
      baseDirectory cwd fp =
        some ⟨cwd.absolute, cwd.components ++ fp.components.dropLast⟩) ∧
    (∀ cwd fp : FsPath, fp.absolute = true → fp.components ≠ [] →
      baseDirectory cwd fp = some ⟨true, fp.components.dropLast⟩) := by
  refine ⟨fun _ _ => rfl, ?_, ?_⟩
  · intro cwd fp habs hne
    unfold baseDirectory FsPath.join
    rw [habs]
    simp only [Bool.false_eq_true, if_false]
    rw [FsPath.parent_of_ne_nil _ (by simp [hne])]
    simp [List.dropLast_append_of_ne_nil _ hne]
  · intro cwd fp habs hne
    unfold baseDirectory FsPath.join
    rw [habs]
    simp only [if_true]
    rw [FsPath.parent_of_ne_nil _ hne]
    cases fp with
    | mk a comps => simp at habs; rw [habs]

/-- Concrete base directory: joining `reqs/file.http` onto `/home/user` and
taking the parent yields `/home/user/reqs`. -/
theorem base_directory_is_parent_of_join_witness :
    baseDirectory ⟨true, ["home", "user"]⟩ ⟨false, ["reqs", "file.http"]⟩ =
      some ⟨true, ["home", "user", "reqs"]⟩ :=
  (base_directory_is_parent_of_join).2.1 ⟨true, ["home", "user"]⟩
    ⟨false, ["reqs", "file.http"]⟩ rfl (by decide)

/-- C4: a file containing a multipart block that references a file path the
filesystem cannot resolve — the block at any position, with any request line,
any headers announcing `multipart/form-data`, and the failing attachment at
any position in its body region — fails the whole parse at parse time with
the distinct I/O-kind error carrying the resolved path, provided everything
before the failing attachment is well formed (an earlier malformed item would
abort first under the fail-fast policy); no request sequence is returned. -/
theorem multipart_missing_file_fails (fs : String → Option String)
    (dir content : String) (b : RequestBlock) (bs1 bs2 : List RequestBlock)
    (line : String) (headerLines : List String) (rl : RequestLine)
    (headers : List HeaderEntry) (ls1 ls2 : List String)
    (l partname path : String)
    (hblocks : splitBlocks content = bs1 ++ b :: bs2)
    (hprev : ∀ b2 ∈ bs1, exceptIsOk (buildRequest fs dir b2) = true)
    (hhead : b.headLines = line :: headerLines)
    (hrl : parseRequestLine line = Except.ok rl)
    (hhd : mapExcept parseHeaderLine headerLines = Except.ok headers)
    (hct : contentTypeOf headers = some "multipart/form-data")
    (hbody : b.bodyLines = ls1 ++ l :: ls2)
    (hparts : ∀ l2 ∈ ls1, exceptIsOk (parsePart fs dir l2) = true)
    (hline : l.data = partname.data ++ '=' :: '@' :: path.data)
    (hname : '=' ∉ partname.data)
    (hfs : fs (joinPath dir path) = Option.none) :
    parse_requests fs dir content =
      Except.error (ParseError.ioError (joinPath dir path)) := by
  have hpart : parsePart fs dir l =
      Except.error (ParseError.ioError (joinPath dir path)) := by
    unfold parsePart
    rw [hline, breakAt_append ('@' :: path.data) hname]
    simp only [strMk_data, hfs]
  have hresolve : resolveBody fs dir headers (ls1 ++ l :: ls2) =
      Except.error (ParseError.ioError (joinPath dir path)) := by
    unfold resolveBody
    rw [hct]
    simp only [mapExcept_error_first ls2 hparts hpart]
    rfl
  have hbuild : buildRequest fs dir b =
      Except.error (ParseError.ioError (joinPath dir path)) := by
    cases b with
    | mk hls bls =>
      simp only at hhead hbody
      subst hhead
      subst hbody
      simp only [buildRequest, hrl, hhd, hresolve]
  have hne : ¬ (splitBlocks content).isEmpty = true := by rw [hblocks]; simp
  unfold parse_requests
  rw [if_neg hne, hblocks]
  exact mapExcept_error_first bs2 hprev hbuild

/-- A file whose first block is valid and whose second block is a multipart
block with a valid inline field followed by an attachment referencing
`missing.png` under base directory `/base` fails the whole parse with the
I/O error for `/base/missing.png`. -/
theorem multipart_missing_file_fails_witness :
    parse_requests fsEmpty "/base"
      "GET http://a.com\n\nPOST http://up.example\nContent-Type: multipart/form-data\n\nfield=hello\nupload=@missing.png" =
      Except.error (ParseError.ioError "/base/missing.png") :=
  multipart_missing_file_fails fsEmpty "/base" _
    ⟨["POST http://up.example", "Content-Type: multipart/form-data"],
      ["field=hello", "upload=@missing.png"]⟩
    [⟨["GET http://a.com"], []⟩] []
    "POST http://up.example" ["Content-Type: multipart/form-data"]
    ⟨"POST", ⟨"http", "up.example"⟩⟩ [⟨"Content-Type", "multipart/form-data"⟩]
    ["field=hello"] [] "upload=@missing.png" "upload" "missing.png"
    (by decide) (by decide) rfl (by decide) (by decide) (by decide) rfl
    (by decide) (by decide) (by decide) rfl

/-- C10: the send stage is fail-fast — when the request at position `i`
fails to send and every request before it succeeds, the send loop hands
exactly the first `i + 1` requests to the transport and stops with that
error; no request after the `i`-th is ever sent. -/
theorem runSend_fail_fast (send : BuiltRequest → Except String Unit)
    (reqs : List BuiltRequest) (i : Nat) (ri : BuiltRequest) (e : String)
    (hi : reqs.get? i = some ri)
    (hfail : send ri = Except.error e)
    (hok : ∀ j rj, j < i → reqs.get? j = some rj → send rj = Except.ok ()) :
    runSend send reqs = (reqs.take (i + 1), some e) := by
  induction reqs generalizing i with
  | nil => simp at hi
  | cons r rs ih =>
    cases i with
    | zero =>
      simp only [List.get?] at hi
      cases hi
      simp [runSend, hfail, List.take]
    | succ k =>
      have h0 : send r = Except.ok () := hok 0 r (Nat.succ_pos k) rfl
      simp only [List.get?] at hi
      have hok2 : ∀ j rj, j < k → rs.get? j = some rj →
          send rj = Except.ok () := fun j rj hj hg =>
        hok (j + 1) rj (Nat.succ_lt_succ hj) hg
      have := ih k hi hok2
      simp [runSend, h0, this, List.take]

/-- A stub transport that rejects `POST`: with requests `GET, POST, GET`, the
loop sends only the first two and stops with the `POST` failure. -/
theorem runSend_fail_fast_witness :
    runSend (fun r => if r.method = "GET" then Except.ok () else
        Except.error "boom")
      [⟨"GET", ⟨"http", "a"⟩, [], Body.none⟩,
       ⟨"POST", ⟨"http", "b"⟩, [], Body.none⟩,
       ⟨"GET", ⟨"http", "c"⟩, [], Body.none⟩] =
      ([⟨"GET", ⟨"http", "a"⟩, [], Body.none⟩,
        ⟨"POST", ⟨"http", "b"⟩, [], Body.none⟩], some "boom") :=
  runSend_fail_fast _ _ 1 ⟨"POST", ⟨"http", "b"⟩, [], Body.none⟩ "boom"
    rfl rfl
    (fun j rj hj hg => by
      have hj0 : j = 0 := Nat.lt_one_iff.mp hj
      subst hj0
      simp only [List.get?, Option.some.injEq] at hg
      subst hg
      rfl)

end Httper
